import Mathlib

/-!
Verification of the CloudFormation YAML validator core.

This file embeds the reference-resolution engine of the validator
(`CloudformationYaml`): the position mapper, the tagged-tree reference
extractor, the referenceable-name collector, the sub-stack parameter
matcher, the diagnostic builders, and the orchestrating analysis pass.

Embedding conventions:
* Machine state and mutation are replaced by explicit arguments and
  return values; JavaScript exceptions (reading a property of
  `undefined`, which abort the analysis pass through the orchestrator's
  catch) are modelled by `Option`, with `none` standing for a thrown
  `TypeError`.
* The YAML AST is a tree of maps, flow sequences, pairs and scalars;
  each node carries its tag (if any) and its absolute start offset.
* Helpers that live in modules absent from the analysed sources
  (`common/Yaml`, `common/Maps`, `common/Diagnostics`, `common/NodeTypes`)
  are modelled from the specification and marked as such in their
  doc comments.
-/

/-- Zero-based line/column position in the source text. -/
structure RowCol where
  line : Nat
  column : Nat
deriving DecidableEq, Repr

/-- Diagnostic severity, mirroring `vscode.DiagnosticSeverity` as used. -/
inductive Severity where
  | Error
  | Warning
deriving DecidableEq, Repr

/-- A renderable diagnostic: single-line range, severity and message. -/
structure Diagnostic where
  startLine : Nat
  startColumn : Nat
  endLine : Nat
  endColumn : Nat
  severity : Severity
  message : String
deriving DecidableEq, Repr

/-- Modelled from the spec: `createDiagnostic` (common/Diagnostics, absent
from src) builds a diagnostic whose range spans from (line, column) to
(line, column + length) on a single line. -/
def createDiagnostic (position : RowCol) (length : Nat) (severity : Severity)
    (message : String) : Diagnostic :=
  ⟨position.line, position.column, position.line, position.column + length,
    severity, message⟩

/-- The matches of the global regex `\r?\n` over a character list, as
(index, match length) records: `"\r\n"` is one match of length 2, a bare
`"\n"` one match of length 1, and a lone `"\r"` matches nothing. -/
def termMatches : List Char → Nat → List (Nat × Nat)
  | [], _ => []
  | [c], i => if c = '\n' then [(i, 1)] else []
  | c1 :: c2 :: rest, i =>
      if c1 = '\n' then (i, 1) :: termMatches (c2 :: rest) (i + 1)
      else if c1 = '\r' ∧ c2 = '\n' then (i, 2) :: termMatches rest (i + 2)
      else termMatches (c2 :: rest) (i + 1)

/-- `getRowColumnPosition` (CloudformationYaml): counts the `\r?\n`
matches in `text.substring(0, absolutePosition)`; the line is the number
of matches and the column is the distance from the end of the last match.
The source reads `matches[matches.length - 1].index` without guarding the
empty-match case, so when no line terminator precedes the offset the
JavaScript code throws a `TypeError`; that branch is `none` here. -/
def getRowColumnPosition (text : String) (absolutePosition : Nat) : Option RowCol :=
  let ms := termMatches (text.toList.take absolutePosition) 0
  match ms.getLast? with
  | none => none
  | some lastLineReturn =>
      some ⟨ms.length, absolutePosition - (lastLineReturn.1 + lastLineReturn.2)⟩

/-- Modelled from the spec: the node-serialization styles of scalars
(`NodeTypes`, absent from src).  The spec's Tag Offset Table distinguishes
exactly the unquoted (`PLAIN`) and quoted (`QUOTE_DOUBLE`) forms, the two
forms the extractor's scalar branch accepts. -/
inductive ScalarKind where
  | PLAIN
  | QUOTE_DOUBLE
deriving DecidableEq, Repr

/-- The YAML AST the validator walks: maps, flow sequences, key/value
pairs (map entries, carrying a `stringKey` and the key node's start
offset) and scalars.  Every node carries its optional tag; scalars carry
their raw string value and absolute start offset (`range[0]`). -/
inductive Yn where
  | scalar (kind : ScalarKind) (tag : Option String) (value : String) (range0 : Nat)
  | seq (tag : Option String) (items : List Yn)
  | map (tag : Option String) (items : List Yn)
  | pair (stringKey : String) (keyRange0 : Nat) (tag : Option String) (value : Yn)

/-- The kinds of intrinsic references (`ReferenceTypes`, src enum). -/
inductive ReferenceType where
  | REF
  | SUB
  | GET_ATT
  | IF
  | FIND_IN_MAP
  | DEPENDS_ON
deriving DecidableEq, Repr

/-- One occurrence of an intrinsic-function usage: kind, referenced name
and the absolute source offset of the name's first character. -/
structure Reference where
  type : ReferenceType
  referencedKey : String
  absoluteKeyPosition : Nat
deriving DecidableEq, Repr

/-- Modelled from the spec: `Maps.nodeTagToReferenceType` (common/Maps,
absent from src) sends each recognized tag or key name to its kind. -/
def nodeTagToReferenceType : String → ReferenceType
  | "!If" => ReferenceType.IF
  | "!FindInMap" => ReferenceType.FIND_IN_MAP
  | "DependsOn" => ReferenceType.DEPENDS_ON
  | "!Sub" => ReferenceType.SUB
  | "!GetAtt" => ReferenceType.GET_ATT
  | _ => ReferenceType.REF

/-- Modelled from the spec: `Maps.nodeTypeToSubOffset` (common/Maps,
absent from src), the quote-offset of the Tag Offset Table: 0 for an
unquoted scalar, 1 for a quoted one. -/
def nodeTypeToSubOffset : ScalarKind → Nat
  | ScalarKind.PLAIN => 0
  | ScalarKind.QUOTE_DOUBLE => 1

/-- JavaScript `a || b` on possibly-undefined tag strings. -/
def jsOr : Option String → Option String → Option String
  | some t, _ => some t
  | none, b => b

/-- JavaScript `value.startsWith('AWS::')`. -/
def startsWithAWS (s : String) : Bool :=
  "AWS::".toList.isPrefixOf s.toList

/-- Scans from a position just after `"${"` to the first `'}'`; returns
the enclosed characters and the remainder after the brace.  `none` means
no closing brace exists, in which case the regex match fails. -/
def scanToClose : List Char → Option (List Char × List Char)
  | [] => none
  | c :: rest =>
      if c = '\x7d' then some ([], rest)
      else
        match scanToClose rest with
        | some (inner, r) => some (c :: inner, r)
        | none => none

/-- The successive matches of the global regex `\$\x7b[^\x7d]*\x7d` over
a character list, as (match index, inner text) records, mirroring the
`regEx.exec` loop of the `!Sub` branch: each match opens at a `"${"`,
runs to the first closing brace, and the scan resumes after it.  The
`fuel` argument only bounds the recursion (each step strictly shrinks the
list, so any `fuel ≥ l.length` computes the scan in full). -/
def subMatchesFuel : Nat → List Char → Nat → List (Nat × String)
  | 0, _, _ => []
  | _ + 1, [], _ => []
  | _ + 1, [_], _ => []
  | fuel + 1, c1 :: c2 :: rest, i =>
      if c1 = '$' ∧ c2 = '\x7b' then
        match scanToClose rest with
        | some (inner, rest') =>
            (i, String.mk inner) :: subMatchesFuel fuel rest' (i + inner.length + 3)
        | none => []
      else subMatchesFuel fuel (c2 :: rest) (i + 1)

/-- The `${...}` placeholder scan of a character list from index `i`. -/
def subMatchesAux (l : List Char) (i : Nat) : List (Nat × String) :=
  subMatchesFuel l.length l i

/-- All `${...}` placeholder matches of a scalar's raw string value. -/
def subMatchesStr (s : String) : List (Nat × String) :=
  subMatchesAux s.toList 0

/-- The classification of a scalar node by the extractor (the trailing
branches of `getSubNodesWhichReference`): `tag` is the node's effective
tag (after inheritance through containers and map entries) and
`stringKey` the key name inherited from an enclosing map entry. -/
def classifyScalar (kind : ScalarKind) (tag : Option String)
    (stringKey : Option String) (value : String) (range0 : Nat) : List Reference :=
  let nodeTag := jsOr tag stringKey
  if nodeTag = some "!If" ∨ nodeTag = some "!FindInMap" ∨ nodeTag = some "DependsOn" then
    [⟨nodeTagToReferenceType (nodeTag.getD ""), value, range0⟩]
  else if tag = some "!GetAtt" then
    [⟨ReferenceType.GET_ATT, value, range0 + 8⟩]
  else if tag = some "!Ref" ∧ startsWithAWS value = false then
    [⟨ReferenceType.REF, value, range0 + 5⟩]
  else if tag = some "!Sub" then
    (subMatchesStr value).map fun m =>
      ⟨ReferenceType.SUB, m.2, range0 + 5 + nodeTypeToSubOffset kind + 2 + m.1⟩
  else []

mutual

/-- `getSubNodesWhichReference`: the recursive extractor walk.  The
source mutates node tags in place (a flow sequence's first element and a
map's entries inherit the container's tag when untagged) and reads the
entry's key name through `getNodeValueIfPair`; the embedding carries the
inherited key name and inherited tag as explicit arguments instead
(modelled from the spec for `getNodeValueIfPair`, common/Yaml, absent
from src: a PAIR's value inherits the pair's stringKey as key-name
context and, when itself untagged, the pair's tag). -/
def getSubNodesWhichReference (stringKey : Option String)
    (inheritedTag : Option String) : Yn → List Reference
  | Yn.pair k _ pt v => getSubNodesWhichReference (some k) (jsOr pt inheritedTag) v
  | Yn.seq t items =>
      match items with
      | [] => []
      | first :: rest =>
          getSubNodesWhichReference none (jsOr t inheritedTag) first ++
            getSubNodesListPlain rest
  | Yn.map t items => getSubNodesListTagged (jsOr t inheritedTag) items
  | Yn.scalar kind tg v r0 => classifyScalar kind (jsOr tg inheritedTag) stringKey v r0

/-- Recursion into the remaining elements of a flow sequence (which keep
their own tags), concatenating results. -/
def getSubNodesListPlain : List Yn → List Reference
  | [] => []
  | x :: xs => getSubNodesWhichReference none none x ++ getSubNodesListPlain xs

/-- Recursion into a map's entries, each inheriting the map's tag when
untagged, concatenating results. -/
def getSubNodesListTagged (t : Option String) : List Yn → List Reference
  | [] => []
  | x :: xs => getSubNodesWhichReference none t x ++ getSubNodesListTagged t xs

end

/-- Whether a character list contains an opening `"${"` of a placeholder. -/
def hasDollarBrace : List Char → Bool
  | c1 :: c2 :: rest => (c1 = '$' && c2 = '\x7b') || hasDollarBrace (c2 :: rest)
  | _ => false

/-- A sub-stack's declared parameter: name and whether it has a Default. -/
structure SubStackParam where
  parameterName : String
  hasDefault : Bool
deriving DecidableEq, Repr

/-- The referenceables a document's sub stacks expose: output names
(qualified `<resource>.Outputs.<key>`) and, per TemplateURL, the declared
parameters.  The parameter map is an association list written in pair
order; as with a JavaScript object, the latest entry for a URL wins. -/
structure SubStackReferenceables where
  outputs : List String
  parameters : List (String × List SubStackParam)
deriving DecidableEq, Repr

/-- The names a document legally exposes (`Referenceables`). -/
structure Referenceables where
  parameters : List String
  resources : List String
  mappings : List String
  conditions : List String
  subStackReferenceables : SubStackReferenceables
deriving DecidableEq, Repr

/-- Modelled from the spec: `Maps.referenceTypeToDiagnosticMessage`
(common/Maps, absent from src) renders the unresolved-reference message;
the spec and the sibling implementation word it uniformly as
"Unable to find referenced variable". -/
def referenceTypeToDiagnosticMessage (t : ReferenceType) (key : String) : String :=
  match t with
  | _ => "Unable to find referenced variable, \x27" ++ key ++ "\x27"

/-- The per-reference body of `buildInvalidReferenceDiagnostics`: the
position lookup happens before the referenceable checks (so a failing
lookup throws, `none`); a GetAtt reference consults only the sub-stack
outputs, every other kind only the local referenceables list. -/
def buildInvalidReferenceDiagnosticsGo (fullText : String)
    (localReferenceables : List String) (subStackOutputs : List String) :
    List Reference → Option (List Diagnostic)
  | [] => some []
  | r :: rs => do
      let position ← getRowColumnPosition fullText r.absoluteKeyPosition
      let diagnostic := createDiagnostic position r.referencedKey.length
        Severity.Error (referenceTypeToDiagnosticMessage r.type r.referencedKey)
      let rest ← buildInvalidReferenceDiagnosticsGo fullText
        localReferenceables subStackOutputs rs
      if r.type = ReferenceType.GET_ATT then
        if subStackOutputs.contains r.referencedKey then pure rest
        else pure (diagnostic :: rest)
      else
        if localReferenceables.contains r.referencedKey then pure rest
        else pure (diagnostic :: rest)

/-- `buildInvalidReferenceDiagnostics`: resolves every extracted
Reference, concatenating conditions, mappings, parameters and resources
into the local referenceable list (the diagnostics are accumulated into
the collection in source; here they are returned). -/
def buildInvalidReferenceDiagnostics (fullText : String)
    (referenceables : Referenceables) (references : List Reference) :
    Option (List Diagnostic) :=
  buildInvalidReferenceDiagnosticsGo fullText
    (referenceables.conditions ++ referenceables.mappings ++
      referenceables.parameters ++ referenceables.resources)
    referenceables.subStackReferenceables.outputs references

/-- The claim's resolution dichotomy, stated from the spec's words: a
GetAtt reference fails resolution exactly when its key is not among the
sub-stack outputs (local names are never consulted); any other reference
fails exactly when its key is not in the union of the local Parameters,
Resources, Conditions and Mappings lists. -/
def specShouldFlag (referenceables : Referenceables) (r : Reference) : Prop :=
  (r.type = ReferenceType.GET_ATT ∧
    r.referencedKey ∉ referenceables.subStackReferenceables.outputs) ∨
  (r.type ≠ ReferenceType.GET_ATT ∧
    r.referencedKey ∉ referenceables.parameters ++ referenceables.resources ++
      referenceables.conditions ++ referenceables.mappings)

instance (referenceables : Referenceables) (r : Reference) :
    Decidable (specShouldFlag referenceables r) := by
  unfold specShouldFlag
  infer_instance

/-- The diagnostic the source builds for an unresolved reference. -/
def unresolvedDiagnostic (fullText : String) (r : Reference) : Diagnostic :=
  createDiagnostic ((getRowColumnPosition fullText r.absoluteKeyPosition).getD ⟨0, 0⟩)
    r.referencedKey.length Severity.Error
    (referenceTypeToDiagnosticMessage r.type r.referencedKey)

/-- A parameter supplied in the parent's `Properties.Parameters` block:
its key string and the key node's start offset. -/
structure SuppliedParam where
  stringKey : String
  keyRange0 : Nat
deriving DecidableEq, Repr

/-- The `find` + `splice` bookkeeping of the supplied-parameter loop:
remove the first declared parameter with the given name. -/
def removeFirstParam (name : String) : List SubStackParam → List SubStackParam
  | [] => []
  | p :: ps => if p.parameterName = name then ps else p :: removeFirstParam name ps

/-- The supplied-parameter loop of
`buildInvalidSubStackParameterDiagnostics`: a supplied parameter with a
matching declared parameter removes it from the remaining list; one
without a match produces an Error diagnostic at the supplied key's
position.  Returns the diagnostics and the declared parameters that were
never matched. -/
def buildSubStackParamDiagsSupplied (fullText : String) :
    List SuppliedParam → List SubStackParam →
      Option (List Diagnostic × List SubStackParam)
  | [], remaining => some ([], remaining)
  | sp :: rest, remaining =>
      if remaining.any (fun rp => rp.parameterName == sp.stringKey) then
        buildSubStackParamDiagsSupplied fullText rest
          (removeFirstParam sp.stringKey remaining)
      else do
        let position ← getRowColumnPosition fullText sp.keyRange0
        let diagnostic := createDiagnostic position sp.stringKey.length
          Severity.Error
          ("Referenced file does not have parameter, \x27" ++ sp.stringKey ++ "\x27")
        let (ds, rem) ← buildSubStackParamDiagsSupplied fullText rest remaining
        some (diagnostic :: ds, rem)

/-- The message for a declared parameter the parent never supplied. -/
def missingParamMessage (p : SubStackParam) : String :=
  if p.hasDefault then
    "Properties missing value for parameter with default value, \x27" ++
      p.parameterName ++ "\x27"
  else
    "Properties missing value for required parameter, \x27" ++
      p.parameterName ++ "\x27"

/-- The severity for a declared parameter the parent never supplied:
Warning when it has a default, Error otherwise. -/
def missingParamSeverity (p : SubStackParam) : Severity :=
  if p.hasDefault then Severity.Warning else Severity.Error

/-- The trailing stage of `buildInvalidSubStackParameterDiagnostics`:
every declared parameter left unmatched yields a diagnostic at the
`Parameters` block's own key position (the source's `propertiesPair`,
refetched by key; when that pair is absent the stage returns early with
no diagnostics). -/
def buildSubStackParamDiagsRemaining (fullText : String)
    (parametersKeyRange0 : Option Nat) (remaining : List SubStackParam) :
    Option (List Diagnostic) :=
  if remaining.length > 0 then
    match parametersKeyRange0 with
    | none => some []
    | some r0 => do
        let propertiesPosition ← getRowColumnPosition fullText r0
        some (remaining.map fun p =>
          createDiagnostic propertiesPosition ("Properties".length)
            (missingParamSeverity p) (missingParamMessage p))
  else some []

/-- `buildInvalidSubStackParameterDiagnostics` for one sub-stack resource
whose `Properties.Parameters` block carries the given supplied entries
and key offset, against the child's declared parameters. -/
def buildInvalidSubStackParameterDiagnosticsOne (fullText : String)
    (supplied : List SuppliedParam) (parametersKeyRange0 : Option Nat)
    (declared : List SubStackParam) : Option (List Diagnostic) := do
  let (ds, remaining) ← buildSubStackParamDiagsSupplied fullText supplied declared
  let ds2 ← buildSubStackParamDiagsRemaining fullText parametersKeyRange0 remaining
  some (ds ++ ds2)

/-- The diagnostic the source builds for a supplied parameter the child
does not declare. -/
def unknownParamDiagnostic (fullText : String) (sp : SuppliedParam) : Diagnostic :=
  createDiagnostic ((getRowColumnPosition fullText sp.keyRange0).getD ⟨0, 0⟩)
    sp.stringKey.length Severity.Error
    ("Referenced file does not have parameter, \x27" ++ sp.stringKey ++ "\x27")

/-- Modelled from the spec: reading and parsing a child-template file
and collecting its declarations (`fs.readFileSync` + `YAML.parseDocument`
+ the Outputs/Parameters walks over the child document): the child's
output keys and its declared parameters with default-presence.  An
`Except.error` carries the underlying failure detail of an unreadable or
unparsable file. -/
structure ChildDoc where
  outputKeys : List String
  parameters : List SubStackParam
deriving DecidableEq, Repr

/-- `getNodeValueIfPair` (common/Yaml, absent from src) restricted to
what the sub-stack walks need: a PAIR node's value, any other node
unchanged. -/
def getNodeValueIfPairN : Yn → Yn
  | Yn.pair _ _ _ v => v
  | n => n

/-- `getNodeItemByStringKey`: the PAIR item of a map with the given
string key, if any. -/
def getNodeItemByStringKey (n : Yn) (k : String) : Option Yn :=
  match n with
  | Yn.map _ items =>
      items.find? fun i =>
        match i with
        | Yn.pair sk _ _ _ => sk == k
        | _ => false
  | _ => none

/-- `node.get(key)` when the looked-up value is a scalar: the raw string
(the JavaScript `typeof templateUrl === 'string'` test selects exactly
this case). -/
def ynGetString (n : Yn) (k : String) : Option String :=
  match getNodeItemByStringKey n k with
  | some (Yn.pair _ _ _ (Yn.scalar _ _ v _)) => some v
  | _ => none

/-- `node.get(key)` when the looked-up value is a collection node. -/
def ynGetCollection (n : Yn) (k : String) : Option Yn :=
  match getNodeItemByStringKey n k with
  | some (Yn.pair _ _ _ (Yn.map t items)) => some (Yn.map t items)
  | some (Yn.pair _ _ _ (Yn.seq t items)) => some (Yn.seq t items)
  | _ => none

/-- One iteration of `getSubStackReferenceables` over a sub-stack node
pair: reads `Properties.TemplateURL`; a non-string URL is skipped
silently; a string URL first registers an empty parameter entry, then
loads the child file — on failure one Error diagnostic is created at the
TemplateURL value's position (carrying the file path and failure detail)
and the pair contributes nothing else; on success the child's outputs are
qualified with the resource name and its parameters recorded under the
URL.  Returns (outputs, parameter-map entries, diagnostics); `none`
models a thrown TypeError (e.g. a resource without Properties). -/
def processSubStackPair (fullText parentPath : String)
    (fs : String → Except String ChildDoc) (nodePair : Yn) :
    Option (List String × List (String × List SubStackParam) × List Diagnostic) :=
  match nodePair with
  | Yn.pair stringKey _ _ v =>
      match ynGetCollection v "Properties" with
      | none => none
      | some properties =>
          match ynGetString properties "TemplateURL" with
          | none => some ([], [], [])
          | some templateUrl =>
              let filePath := parentPath ++ "/" ++ templateUrl
              match fs filePath with
              | Except.error err =>
                  match getNodeItemByStringKey properties "TemplateURL" with
                  | some (Yn.pair _ _ _ (Yn.scalar _ _ tuValue tuRange0)) =>
                      match getRowColumnPosition fullText tuRange0 with
                      | none => none
                      | some position =>
                          some ([], [(templateUrl, [])],
                            [createDiagnostic position tuValue.length Severity.Error
                              ("Unable to load or parse template file, \x27" ++
                                filePath ++ "\x27. Error encountered: " ++ err)])
                  | _ => some ([], [(templateUrl, [])], [])
              | Except.ok child =>
                  some (child.outputKeys.map
                      (fun k => stringKey ++ ".Outputs." ++ k),
                    [(templateUrl, child.parameters)], [])
  | _ => none

/-- The per-pair results of the sub-stack walk, in order; `none` as soon
as one pair throws. -/
def processSubStackPairs (fullText parentPath : String)
    (fs : String → Except String ChildDoc) :
    List Yn → Option (List (List String × List (String × List SubStackParam) × List Diagnostic))
  | [] => some []
  | p :: ps => do
      let r ← processSubStackPair fullText parentPath fs p
      let rs ← processSubStackPairs fullText parentPath fs ps
      some (r :: rs)

/-- `getSubStackReferenceables`: processes every sub-stack node pair in
order, concatenating outputs, parameter-map entries and diagnostics.  As
in a JavaScript object, a later parameter entry for the same URL
overrides an earlier one (lookup takes the last entry). -/
def getSubStackReferenceables (fullText parentPath : String)
    (fs : String → Except String ChildDoc) (pairs : List Yn) :
    Option (SubStackReferenceables × List Diagnostic) := do
  let results ← processSubStackPairs fullText parentPath fs pairs
  some (⟨(results.map (fun x => x.1)).flatten,
      (results.map (fun x => x.2.1)).flatten⟩,
    (results.map (fun x => x.2.2)).flatten)

/-- Lookup in the parameter map: the last entry for the URL wins. -/
def lookupTemplateParams (m : List (String × List SubStackParam))
    (templateUrl : String) : Option (List SubStackParam) :=
  (m.reverse.find? (fun e => e.1 == templateUrl)).map (fun e => e.2)

/-- Whether a tag is one of the recognized intrinsic markers (or the
bare `DependsOn` used as tag context). -/
def tagIsIntrinsic : Option String → Bool
  | some t => t == "!Ref" || t == "!Sub" || t == "!GetAtt" || t == "!If" ||
      t == "!FindInMap" || t == "DependsOn"
  | none => false

/-- Whether a key name triggers the direct-name scalar branch. -/
def keyIsTrigger (k : String) : Bool :=
  k == "!If" || k == "!FindInMap" || k == "DependsOn"

/-- Whether an inherited key-name context is harmless to the extractor. -/
def skOk : Option String → Bool
  | none => true
  | some s => !(keyIsTrigger s)

mutual

/-- A node (and its subtree) is free of intrinsic-tag usage: no
intrinsic tag anywhere and no map key among the trigger names. -/
def noIntrinsicNode : Yn → Bool
  | Yn.scalar _ tg _ _ => !(tagIsIntrinsic tg)
  | Yn.seq t items => !(tagIsIntrinsic t) && noIntrinsicList items
  | Yn.map t items => !(tagIsIntrinsic t) && noIntrinsicList items
  | Yn.pair k _ t v => !(keyIsTrigger k) && !(tagIsIntrinsic t) && noIntrinsicNode v

/-- All nodes of a list are free of intrinsic-tag usage. -/
def noIntrinsicList : List Yn → Bool
  | [] => true
  | x :: xs => noIntrinsicNode x && noIntrinsicList xs

end

/-- The `stringKey` property of a node: present on PAIR items only. -/
def stringKeyOf : Yn → Option String
  | Yn.pair k _ _ _ => some k
  | _ => none

/-- `getYamlNodeKeys`: the `stringKey`s of a node's items; a node
without items yields no keys. -/
def getYamlNodeKeys : Option Yn → List String
  | some (Yn.map _ items) => items.filterMap stringKeyOf
  | some (Yn.seq _ items) => items.filterMap stringKeyOf
  | _ => []

/-- `document.get(key)` over the document's top-level map entries: the
value node of the matching entry. -/
def docGet (docItems : Option (List Yn)) (k : String) : Option Yn :=
  match docItems with
  | some items =>
      match items.find? (fun i => stringKeyOf i == some k) with
      | some (Yn.pair _ _ _ v) => some v
      | _ => none
  | none => none

mutual

/-- `getSubStackNodePairs`: collects the node pairs whose MAP value
declares `Type: AWS::CloudFormation::Stack`, recursing into map entries
otherwise. -/
def getSubStackNodePairs : Yn → List Yn
  | Yn.pair k kr t v =>
      match v with
      | Yn.map mt items =>
          if ynGetString (Yn.map mt items) "Type" =
              some "AWS::CloudFormation::Stack" then
            [Yn.pair k kr t (Yn.map mt items)]
          else getSubStackNodePairsList items
      | _ => []
  | Yn.map mt items =>
      if ynGetString (Yn.map mt items) "Type" =
          some "AWS::CloudFormation::Stack" then
        [Yn.map mt items]
      else getSubStackNodePairsList items
  | _ => []

/-- Recursion of `getSubStackNodePairs` into a map's entries. -/
def getSubStackNodePairsList : List Yn → List Yn
  | [] => []
  | x :: xs => getSubStackNodePairs x ++ getSubStackNodePairsList xs

end

/-- `findSubStackNodePairs`: starts the sub-stack walk at the top-level
`Resources` entry, if any. -/
def findSubStackNodePairsDoc : Option (List Yn) → List Yn
  | some items =>
      match items.find? (fun i => stringKeyOf i == some "Resources") with
      | some resources => getSubStackNodePairs resources
      | none => []
  | none => []

/-- The extractor's entry into a top-level section: `document.get`
returns the raw string for a scalar-valued section (which the walk then
ignores, having no node type) and the collection node otherwise. -/
def extractTop : Option Yn → List Reference
  | none => []
  | some (Yn.scalar _ _ _ _) => []
  | some n => getSubNodesWhichReference none none n

/-- `getNodesWhichReference`: the extractor runs over the Resources and
Outputs sections and concatenates. -/
def getNodesWhichReference (docItems : Option (List Yn)) : List Reference :=
  extractTop (docGet docItems "Resources") ++ extractTop (docGet docItems "Outputs")

/-- The empty referenceables of a document with no contents. -/
def emptyReferenceables : Referenceables := ⟨[], [], [], [], ⟨[], []⟩⟩

/-- `getReferenceables`: top-level section keys plus the sub-stack
referenceables (whose collection may record load-failure diagnostics). -/
def getReferenceables (docItems : Option (List Yn)) (fullText parentPath : String)
    (fs : String → Except String ChildDoc) :
    Option (Referenceables × List Diagnostic) :=
  match docItems with
  | some _ => do
      let subStackNodePairs := findSubStackNodePairsDoc docItems
      let (subStackReferenceables, diags) ←
        getSubStackReferenceables fullText parentPath fs subStackNodePairs
      some (⟨getYamlNodeKeys (docGet docItems "Parameters"),
        getYamlNodeKeys (docGet docItems "Resources"),
        getYamlNodeKeys (docGet docItems "Mappings"),
        getYamlNodeKeys (docGet docItems "Conditions"),
        subStackReferenceables⟩, diags)
  | none => some (emptyReferenceables, [])

/-- A node's items, when it has any (`node.items`). -/
def itemsOfYn : Yn → Option (List Yn)
  | Yn.map _ items => some items
  | Yn.seq _ items => some items
  | _ => none

/-- The supplied parameters of a `Properties.Parameters` block: each
PAIR item's key and key offset; a non-pair item has no `stringKey` and
no key node, which the loop's diagnostic construction cannot survive. -/
def suppliedOfItems : List Yn → Option (List SuppliedParam)
  | [] => some []
  | Yn.pair sk kr _ _ :: rest =>
      (suppliedOfItems rest).map (fun l => ⟨sk, kr⟩ :: l)
  | _ :: _ => none

/-- A PAIR node's key offset. -/
def keyRangeOfPair : Yn → Option Nat
  | Yn.pair _ kr _ _ => some kr
  | _ => none

/-- `buildInvalidSubStackParameterDiagnostics` for one sub-stack node
pair, reading the supplied parameters and the child's declared
parameters from the tree and the collected parameter map. -/
def buildInvalidSubStackParameterDiagnosticsNode (fullText : String)
    (paramsMap : List (String × List SubStackParam)) (nodePair : Yn) :
    Option (List Diagnostic) :=
  match nodePair with
  | Yn.pair _ _ _ v =>
      match getNodeItemByStringKey v "Properties" with
      | none => none
      | some propPair =>
          match getNodeValueIfPairN propPair with
          | Yn.map pt pitems =>
              match ynGetString (Yn.map pt pitems) "TemplateURL" with
              | none => some []
              | some templateUrl => do
                  let declared ← lookupTemplateParams paramsMap templateUrl
                  let parametersPair ←
                    getNodeItemByStringKey (Yn.map pt pitems) "Parameters"
                  let pitems2 ← itemsOfYn (getNodeValueIfPairN parametersPair)
                  let supplied ← suppliedOfItems pitems2
                  buildInvalidSubStackParameterDiagnosticsOne fullText supplied
                    (keyRangeOfPair parametersPair) declared
          | Yn.seq _ _ => some []
          | _ => none
  | _ => some []

/-- The sub-stack parameter walk over every found node pair. -/
def buildParamDiagsList (fullText : String)
    (paramsMap : List (String × List SubStackParam)) :
    List Yn → Option (List Diagnostic)
  | [] => some []
  | p :: ps => do
      let d ← buildInvalidSubStackParameterDiagnosticsNode fullText paramsMap p
      let ds ← buildParamDiagsList fullText paramsMap ps
      some (d ++ ds)

/-- `checkYaml`: one full analysis pass — referenceable collection (with
child-template load diagnostics), reference extraction and resolution,
then sub-stack parameter matching; all diagnostics concatenated in the
order the source adds them.  `none` models a thrown error caught by the
orchestrator (aborting the pass). -/
def checkYaml (docItems : Option (List Yn)) (fullText parentPath : String)
    (fs : String → Except String ChildDoc) : Option (List Diagnostic) := do
  let (referenceables, loadDiags) ← getReferenceables docItems fullText parentPath fs
  let nodesWhichReference := getNodesWhichReference docItems
  let refDiags ← buildInvalidReferenceDiagnostics fullText referenceables
    nodesWhichReference
  let subStackNodePairs := findSubStackNodePairsDoc docItems
  let paramDiags ← buildParamDiagsList fullText
    referenceables.subStackReferenceables.parameters subStackNodePairs
  some (loadDiags ++ refDiags ++ paramDiags)

/-- A document contains no intrinsic-tag usage. -/
def noIntrinsicDoc : Option (List Yn) → Bool
  | some items => noIntrinsicList items
  | none => true

/-- A document with no intrinsic-tag usage at all, but with one
child-stack resource whose TemplateURL cannot be loaded. -/
def noIntrinsicSubStackDoc : Option (List Yn) :=
  some [Yn.pair "Resources" 0 none (Yn.map none [
    Yn.pair "Child" 13 none (Yn.map none [
      Yn.pair "Type" 24 none
        (Yn.scalar ScalarKind.PLAIN none "AWS::CloudFormation::Stack" 30),
      Yn.pair "Properties" 61 none (Yn.map none [
        Yn.pair "TemplateURL" 79 none
          (Yn.scalar ScalarKind.PLAIN none "missing.yaml" 92),
        Yn.pair "Parameters" 111 none (Yn.map none [])])])])]

/-- The source text the counterexample document was parsed from. -/
def noIntrinsicSubStackText : String :=
  "Resources:\n  Child:\n    Type: AWS::CloudFormation::Stack\n    Properties:\n      TemplateURL: missing.yaml\n      Parameters: \x7b\x7d\n"

/-- C1: the Position Mapper resolves an absolute offset to a zero-based
line/column pair by counting `\r?\n` terminators before the offset; the
claim additionally asserts that an offset on the first line (no preceding
terminator) still yields a result with column equal to the offset.  The
code instead indexes into the empty match list and throws: at source text
`"abc"` and offset `2` the claimed result is line 0 / column 2, but the
implementation produces no result (modelled `none`).  On offsets preceded
by at least one terminator the line/column arithmetic is as claimed, for
both `\n` and `\r\n` endings. -/
theorem getRowColumnPosition_first_line_fails :
    getRowColumnPosition "abc" 2 = none ∧
    getRowColumnPosition "Resources:\n  A: b" 13 = some ⟨1, 2⟩ ∧
    getRowColumnPosition "a\r\nbc" 4 = some ⟨1, 1⟩ ∧
    getRowColumnPosition "x\ny\nz" 4 = some ⟨2, 0⟩ := by
  decide

theorem scanToClose_length {l : List Char} : ∀ {inner r : List Char},
    scanToClose l = some (inner, r) → r.length < l.length := by
  induction l with
  | nil => intro inner r h; simp [scanToClose] at h
  | cons c rest ih =>
      intro inner r h
      by_cases hc : c = '\x7d'
      · simp [scanToClose, hc] at h
        obtain ⟨-, h2⟩ := h
        subst h2
        simp
      · simp only [scanToClose, hc, if_false] at h
        cases hrec : scanToClose rest with
        | none => simp [hrec] at h
        | some p =>
            obtain ⟨pi, pr⟩ := p
            simp [hrec] at h
            obtain ⟨-, h2⟩ := h
            subst h2
            have := ih hrec
            simp
            omega

theorem scanToClose_append {inner : List Char} (rest : List Char)
    (h : '\x7d' ∉ inner) :
    scanToClose (inner ++ '\x7d' :: rest) = some (inner, rest) := by
  induction inner with
  | nil => simp [scanToClose]
  | cons c cs ih =>
      have hc : ¬(c = '\x7d') := fun e => h (e ▸ List.mem_cons_self c cs)
      have hcs : '\x7d' ∉ cs := fun e => h (List.mem_cons_of_mem c e)
      simp [scanToClose, hc, ih hcs]

theorem subMatchesFuel_congr (f : Nat) : ∀ (g : Nat) (l : List Char) (i : Nat),
    l.length ≤ f → l.length ≤ g → subMatchesFuel f l i = subMatchesFuel g l i := by
  induction f with
  | zero =>
      intro g l i hf _
      have : l = [] := List.length_eq_zero.mp (Nat.le_zero.mp hf)
      subst this
      cases g <;> simp [subMatchesFuel]
  | succ f ih =>
      intro g l i hf hg
      match l with
      | [] => cases g <;> simp [subMatchesFuel]
      | [c] =>
          cases g with
          | zero => simp at hg
          | succ g => simp [subMatchesFuel]
      | c1 :: c2 :: rest =>
          cases g with
          | zero => simp at hg
          | succ g =>
              simp only [List.length_cons] at hf hg
              by_cases hc : c1 = '$' ∧ c2 = '\x7b'
              · simp only [subMatchesFuel, if_pos hc]
                cases hscan : scanToClose rest with
                | none => rfl
                | some p =>
                    obtain ⟨inner, rest'⟩ := p
                    have hlen := scanToClose_length hscan
                    simp only [List.cons.injEq, true_and]
                    exact ih g rest' _ (by omega) (by omega)
              · simp only [subMatchesFuel, if_neg hc]
                exact ih g (c2 :: rest) (i + 1) (by simp; omega) (by simp; omega)

theorem subMatchesAux_fuel {f : Nat} {l : List Char} (i : Nat)
    (h : l.length ≤ f) : subMatchesFuel f l i = subMatchesAux l i :=
  subMatchesFuel_congr f l.length l i h (Nat.le_refl _)

theorem subMatchesFuel_cons2 (fuel : Nat) (c1 c2 : Char) (rest : List Char) (i : Nat) :
    subMatchesFuel (fuel + 1) (c1 :: c2 :: rest) i =
      (if c1 = '$' ∧ c2 = '\x7b' then
        match scanToClose rest with
        | some (inner, rest') =>
            (i, String.mk inner) :: subMatchesFuel fuel rest' (i + inner.length + 3)
        | none => []
      else subMatchesFuel fuel (c2 :: rest) (i + 1)) := rfl

theorem subMatchesAux_cons_step (c c2 : Char) (rest : List Char) (i : Nat)
    (hc : ¬(c = '$' ∧ c2 = '\x7b')) :
    subMatchesAux (c :: c2 :: rest) i = subMatchesAux (c2 :: rest) (i + 1) := by
  rw [show subMatchesAux (c :: c2 :: rest) i
      = subMatchesFuel ((c2 :: rest).length + 1) (c :: c2 :: rest) i from rfl]
  rw [subMatchesFuel_cons2, if_neg hc]
  rfl

theorem subMatchesAux_open (inner rest : List Char) (i : Nat)
    (hinner : '\x7d' ∉ inner) :
    subMatchesAux ('$' :: '\x7b' :: (inner ++ '\x7d' :: rest)) i =
      (i, String.mk inner) :: subMatchesAux rest (i + inner.length + 3) := by
  rw [show subMatchesAux ('$' :: '\x7b' :: (inner ++ '\x7d' :: rest)) i
      = subMatchesFuel ((inner ++ '\x7d' :: rest).length + 1 + 1)
          ('$' :: '\x7b' :: (inner ++ '\x7d' :: rest)) i from rfl]
  rw [subMatchesFuel_cons2, if_pos ⟨rfl, rfl⟩, scanToClose_append rest hinner]
  show (i, String.mk inner) ::
      subMatchesFuel ((inner ++ '\x7d' :: rest).length + 1) rest (i + inner.length + 3) = _
  rw [subMatchesAux_fuel (i + inner.length + 3) (by simp; omega)]

theorem subMatchesAux_of_no_placeholder : ∀ (l : List Char),
    hasDollarBrace l = false → ∀ i, subMatchesAux l i = [] := by
  intro l
  induction l with
  | nil => intro _ i; rfl
  | cons c cs ih =>
      intro h i
      cases cs with
      | nil => rfl
      | cons c2 cs' =>
          simp only [hasDollarBrace, Bool.or_eq_false_iff] at h
          have hc : ¬(c = '$' ∧ c2 = '\x7b') := by
            rintro ⟨e1, e2⟩
            simp [e1, e2] at h
          rw [subMatchesAux_cons_step c c2 cs' i hc]
          exact ih h.2 (i + 1)

theorem subMatchesAux_decomp (pre inner rest : List Char) (i : Nat)
    (hpre : hasDollarBrace pre = false) (hinner : '\x7d' ∉ inner) :
    subMatchesAux (pre ++ '$' :: '\x7b' :: (inner ++ '\x7d' :: rest)) i =
      (i + pre.length, String.mk inner) ::
        subMatchesAux rest (i + pre.length + inner.length + 3) := by
  induction pre generalizing i with
  | nil => simpa using subMatchesAux_open inner rest i hinner
  | cons c cs ih =>
      rw [List.cons_append]
      have step : subMatchesAux (c :: (cs ++ '$' :: '\x7b' :: (inner ++ '\x7d' :: rest))) i
          = subMatchesAux (cs ++ '$' :: '\x7b' :: (inner ++ '\x7d' :: rest)) (i + 1) := by
        cases cs with
        | nil =>
            simp only [List.nil_append]
            exact subMatchesAux_cons_step _ _ _ _ (by rintro ⟨-, e⟩; exact absurd e (by decide))
        | cons c2 cs' =>
            have hc : ¬(c = '$' ∧ c2 = '\x7b') := by
              simp only [hasDollarBrace, Bool.or_eq_false_iff] at hpre
              rintro ⟨e1, e2⟩
              simp [e1, e2] at hpre
            rw [List.cons_append]
            exact subMatchesAux_cons_step _ _ _ _ hc
      rw [step]
      have hcs : hasDollarBrace cs = false := by
        cases cs with
        | nil => rfl
        | cons c2 cs' =>
            simp only [hasDollarBrace, Bool.or_eq_false_iff] at hpre
            exact hpre.2
      rw [ih (i + 1) hcs]
      have e : i + 1 + cs.length = i + (c :: cs).length := by simp; omega
      rw [e]

theorem classifyScalar_sub (kind : ScalarKind) (v : String) (r0 : Nat) :
    classifyScalar kind (some "!Sub") none v r0 =
      (subMatchesStr v).map fun m =>
        ⟨ReferenceType.SUB, m.2, r0 + 5 + nodeTypeToSubOffset kind + 2 + m.1⟩ := by
  simp only [classifyScalar, jsOr]
  rw [if_neg (by decide), if_neg (by decide),
      if_neg (fun h => absurd h.1 (by decide))]
  simp

/-- C2: a `!Sub` scalar's placeholders each become one Reference whose
name is the inner text and whose offset is node start + 5 (tag skip)
+ 2 (open-brace skip) + the quote-offset (0 or 1 by scalar form) + the
match's index in the raw value; a decomposition of the value as
`pre ++ "${" ++ inner ++ "}" ++ rest` (with no placeholder opening in
`pre` and no closing brace in `inner`) is exactly the first regex match,
and the scan continues through `rest`; a value with no placeholder at all
yields zero References and no error. -/
theorem sub_placeholder_extraction (kind : ScalarKind) (pre inner rest : List Char)
    (r0 : Nat) (hpre : hasDollarBrace pre = false) (hinner : '\x7d' ∉ inner) :
    getSubNodesWhichReference none none
        (Yn.scalar kind (some "!Sub")
          (String.mk (pre ++ '$' :: '\x7b' :: (inner ++ '\x7d' :: rest))) r0) =
      ⟨ReferenceType.SUB, String.mk inner,
          r0 + 5 + 2 + nodeTypeToSubOffset kind + pre.length⟩ ::
        (subMatchesAux rest (pre.length + inner.length + 3)).map (fun m =>
          ⟨ReferenceType.SUB, m.2, r0 + 5 + nodeTypeToSubOffset kind + 2 + m.1⟩) ∧
    ∀ w : List Char, hasDollarBrace w = false →
      getSubNodesWhichReference none none
        (Yn.scalar kind (some "!Sub") (String.mk w) r0) = [] := by
  constructor
  · show classifyScalar kind (some "!Sub") none
        (String.mk (pre ++ '$' :: '\x7b' :: (inner ++ '\x7d' :: rest))) r0 = _
    rw [classifyScalar_sub]
    rw [show subMatchesStr (String.mk (pre ++ '$' :: '\x7b' :: (inner ++ '\x7d' :: rest)))
        = subMatchesAux (pre ++ '$' :: '\x7b' :: (inner ++ '\x7d' :: rest)) 0 from rfl]
    rw [subMatchesAux_decomp pre inner rest 0 hpre hinner]
    simp only [List.map_cons, Nat.zero_add]
    have e : r0 + 5 + nodeTypeToSubOffset kind + 2 + pre.length
        = r0 + 5 + 2 + nodeTypeToSubOffset kind + pre.length := by omega
    rw [e]
  · intro w hw
    show classifyScalar kind (some "!Sub") none (String.mk w) r0 = []
    rw [classifyScalar_sub]
    rw [show subMatchesStr (String.mk w) = subMatchesAux w 0 from rfl]
    rw [subMatchesAux_of_no_placeholder w hw 0]
    rfl

theorem sub_placeholder_extraction_witness :
    hasDollarBrace ['x'] = false ∧ '\x7d' ∉ ['F', 'o', 'o'] ∧
    (getSubNodesWhichReference none none
        (Yn.scalar ScalarKind.PLAIN (some "!Sub")
          (String.mk (['x'] ++ '$' :: '\x7b' :: (['F', 'o', 'o'] ++ '\x7d' :: []))) 50) =
      ⟨ReferenceType.SUB, String.mk ['F', 'o', 'o'],
          50 + 5 + 2 + nodeTypeToSubOffset ScalarKind.PLAIN + ['x'].length⟩ ::
        (subMatchesAux [] (['x'].length + ['F', 'o', 'o'].length + 3)).map (fun m =>
          ⟨ReferenceType.SUB, m.2, 50 + 5 + nodeTypeToSubOffset ScalarKind.PLAIN + 2 + m.1⟩) ∧
      ∀ w : List Char, hasDollarBrace w = false →
        getSubNodesWhichReference none none
          (Yn.scalar ScalarKind.PLAIN (some "!Sub") (String.mk w) 50) = []) :=
  ⟨by decide, by decide,
    sub_placeholder_extraction ScalarKind.PLAIN ['x'] ['F', 'o', 'o'] [] 50
      (by decide) (by decide)⟩

/-- C3: a scalar tagged `!Ref` whose value does not start with `AWS::`
yields exactly one Ref Reference at node start + 5, and one whose value
does start with `AWS::` yields none. -/
theorem ref_extraction (kind : ScalarKind) (v : String) (r0 : Nat)
    (h : startsWithAWS v = false) :
    getSubNodesWhichReference none none (Yn.scalar kind (some "!Ref") v r0) =
      [⟨ReferenceType.REF, v, r0 + 5⟩] ∧
    ∀ w : String, startsWithAWS w = true →
      getSubNodesWhichReference none none (Yn.scalar kind (some "!Ref") w r0) = [] := by
  constructor
  · show classifyScalar kind (some "!Ref") none v r0 = _
    simp only [classifyScalar, jsOr]
    rw [if_neg (by decide), if_neg (by decide)]
    simp [h]
  · intro w hw
    show classifyScalar kind (some "!Ref") none w r0 = []
    simp only [classifyScalar, jsOr]
    rw [if_neg (by decide), if_neg (by decide),
        if_neg (fun hx => by rw [hw] at hx; exact absurd hx.2 (by decide)),
        if_neg (by decide)]

theorem ref_extraction_witness :
    startsWithAWS "MyParam" = false ∧
    (getSubNodesWhichReference none none
        (Yn.scalar ScalarKind.PLAIN (some "!Ref") "MyParam" 40) =
      [⟨ReferenceType.REF, "MyParam", 40 + 5⟩] ∧
    ∀ w : String, startsWithAWS w = true →
      getSubNodesWhichReference none none
        (Yn.scalar ScalarKind.PLAIN (some "!Ref") w 40) = []) :=
  ⟨by decide, ref_extraction ScalarKind.PLAIN "MyParam" 40 (by decide)⟩

/-- C4: an untagged scalar whose key name or inherited tag context is one
of `!If`, `!FindInMap`, `DependsOn` yields exactly one Reference of the
corresponding kind at the node's own start offset (no character skip),
and a scalar tagged `!GetAtt` yields exactly one Reference at node
start + 8. -/
theorem direct_name_extraction (t : String) (kind : ScalarKind) (v : String)
    (r0 kr : Nat) (ht : t = "!If" ∨ t = "!FindInMap" ∨ t = "DependsOn") :
    getSubNodesWhichReference none none
        (Yn.pair t kr none (Yn.scalar kind none v r0)) =
      [⟨nodeTagToReferenceType t, v, r0⟩] ∧
    getSubNodesWhichReference none (some t) (Yn.scalar kind none v r0) =
      [⟨nodeTagToReferenceType t, v, r0⟩] ∧
    getSubNodesWhichReference none none (Yn.scalar kind (some "!GetAtt") v r0) =
      [⟨ReferenceType.GET_ATT, v, r0 + 8⟩] := by
  refine ⟨?_, ?_, ?_⟩
  · show classifyScalar kind (jsOr none none) (some t) v r0 = _
    rcases ht with h | h | h <;> subst h <;>
      simp [classifyScalar, jsOr, nodeTagToReferenceType]
  · show classifyScalar kind (jsOr none (some t)) none v r0 = _
    rcases ht with h | h | h <;> subst h <;>
      simp [classifyScalar, jsOr, nodeTagToReferenceType]
  · show classifyScalar kind (some "!GetAtt") none v r0 = _
    simp only [classifyScalar, jsOr]
    rw [if_neg (by decide)]
    simp

theorem direct_name_extraction_witness :
    ("DependsOn" = "!If" ∨ "DependsOn" = "!FindInMap" ∨ "DependsOn" = "DependsOn") ∧
    (getSubNodesWhichReference none none
        (Yn.pair "DependsOn" 2 none (Yn.scalar ScalarKind.PLAIN none "Res" 14)) =
      [⟨nodeTagToReferenceType "DependsOn", "Res", 14⟩] ∧
    getSubNodesWhichReference none (some "DependsOn")
        (Yn.scalar ScalarKind.PLAIN none "Res" 14) =
      [⟨nodeTagToReferenceType "DependsOn", "Res", 14⟩] ∧
    getSubNodesWhichReference none none
        (Yn.scalar ScalarKind.PLAIN (some "!GetAtt") "Res" 14) =
      [⟨ReferenceType.GET_ATT, "Res", 14 + 8⟩]) :=
  ⟨by decide,
    direct_name_extraction "DependsOn" ScalarKind.PLAIN "Res" 14 2
      (Or.inr (Or.inr rfl))⟩

/-- C5: at a (flow) sequence node the extractor recurses into every
child and concatenates their Reference lists, with the sequence's own
(effective) tag offered to the first child only; the propagation has an
effect only if that first child is untagged (an untagged scalar child is
classified under the propagated tag, a tagged one under its own tag),
and the remaining children are traversed with no inherited tag. -/
theorem seq_traversal (t inh : Option String) (x : Yn) (rest : List Yn) :
    getSubNodesWhichReference none inh (Yn.seq t (x :: rest)) =
      getSubNodesWhichReference none (jsOr t inh) x ++ getSubNodesListPlain rest ∧
    (∀ (tg : String) (kind : ScalarKind) (v : String) (r0 : Nat),
      getSubNodesWhichReference none (some tg) (Yn.scalar kind none v r0) =
        classifyScalar kind (some tg) none v r0) ∧
    (∀ (tg tg' : String) (kind : ScalarKind) (v : String) (r0 : Nat),
      getSubNodesWhichReference none (some tg) (Yn.scalar kind (some tg') v r0) =
        classifyScalar kind (some tg') none v r0) ∧
    getSubNodesListPlain rest =
      (rest.map (getSubNodesWhichReference none none)).flatten := by
  refine ⟨rfl, fun _ _ _ _ => rfl, fun _ _ _ _ _ => rfl, ?_⟩
  induction rest with
  | nil => rfl
  | cons y ys ih => simp [getSubNodesListPlain, ih]

theorem localReferenceables_mem_comm (referenceables : Referenceables) (k : String) :
    (k ∈ referenceables.conditions ++ referenceables.mappings ++
        referenceables.parameters ++ referenceables.resources) ↔
      (k ∈ referenceables.parameters ++ referenceables.resources ++
        referenceables.conditions ++ referenceables.mappings) := by
  simp only [List.mem_append]
  tauto

theorem buildInvalidReferenceDiagnostics_spec (fullText : String) (referenceables : Referenceables)
    (references : List Reference)
    (h : ∀ r ∈ references, (getRowColumnPosition fullText r.absoluteKeyPosition).isSome) :
    buildInvalidReferenceDiagnostics fullText referenceables references =
      some ((references.filter (fun r => decide (specShouldFlag referenceables r))).map
        (unresolvedDiagnostic fullText)) := by
  unfold buildInvalidReferenceDiagnostics
  induction references with
  | nil => rfl
  | cons r rs ih =>
      have hr := h r (List.mem_cons_self r rs)
      obtain ⟨pos, hpos⟩ := Option.isSome_iff_exists.mp hr
      have hrs := ih (fun x hx => h x (List.mem_cons_of_mem r hx))
      simp only [buildInvalidReferenceDiagnosticsGo, Option.bind_eq_bind,
        Option.some_bind, hpos, hrs, List.filter_cons]
      have hdiag : createDiagnostic pos r.referencedKey.length Severity.Error
          (referenceTypeToDiagnosticMessage r.type r.referencedKey) =
          unresolvedDiagnostic fullText r := by
        simp [unresolvedDiagnostic, hpos]
      by_cases hty : r.type = ReferenceType.GET_ATT
      · rw [hty] at hdiag
        by_cases hmem : r.referencedKey ∈ referenceables.subStackReferenceables.outputs
        · have hflag : ¬ specShouldFlag referenceables r := by
            simp [specShouldFlag, hty, hmem]
          simp [hty, hmem, hflag, List.contains, hdiag]
        · have hflag : specShouldFlag referenceables r := Or.inl ⟨hty, hmem⟩
          simp [hty, hmem, hflag, List.contains, hdiag]
      · by_cases hmem : r.referencedKey ∈ referenceables.conditions ++
            referenceables.mappings ++ referenceables.parameters ++ referenceables.resources
        · have hflag : ¬ specShouldFlag referenceables r := by
            simp only [specShouldFlag, not_or]
            exact ⟨fun hx => hty hx.1,
              fun hx => hx.2 ((localReferenceables_mem_comm referenceables _).mp hmem)⟩
          simp only [List.mem_append] at hmem
          simp [hty, hmem, hflag, List.contains, hdiag, List.mem_append]
          tauto
        · have hflag : specShouldFlag referenceables r := Or.inr ⟨hty,
            fun hx => hmem ((localReferenceables_mem_comm referenceables _).mpr hx)⟩
          simp only [List.mem_append, not_or] at hmem
          simp [hty, hmem, hflag, List.contains, hdiag, List.mem_append]

/-- C6: the resolution dichotomy.  Whenever every extracted Reference's
position resolves (no reference sits on the document's first line), the
builder returns exactly one "Unable to find referenced variable" Error
diagnostic for each Reference that fails its applicable check and nothing
else: a GetAtt reference fails exactly when its key is missing from the
sub-stack outputs (local names are never consulted), any other kind fails
exactly when its key is missing from the union of the local Parameters,
Resources, Conditions and Mappings lists. -/
theorem resolution_dichotomy (fullText : String) (referenceables : Referenceables)
    (references : List Reference)
    (h : ∀ r ∈ references, (getRowColumnPosition fullText r.absoluteKeyPosition).isSome) :
    buildInvalidReferenceDiagnostics fullText referenceables references =
      some ((references.filter (fun r => decide (specShouldFlag referenceables r))).map
        (unresolvedDiagnostic fullText)) :=
  buildInvalidReferenceDiagnostics_spec fullText referenceables references h

theorem resolution_dichotomy_witness :
    (∀ r ∈ [Reference.mk ReferenceType.REF "B" 30,
            Reference.mk ReferenceType.GET_ATT "S.Outputs.X" 44],
      (getRowColumnPosition "Resources:\n" r.absoluteKeyPosition).isSome) ∧
    buildInvalidReferenceDiagnostics "Resources:\n"
        ⟨["P"], ["A"], [], [], ⟨["S.Outputs.X"], []⟩⟩
        [Reference.mk ReferenceType.REF "B" 30,
         Reference.mk ReferenceType.GET_ATT "S.Outputs.X" 44] =
      some (([Reference.mk ReferenceType.REF "B" 30,
              Reference.mk ReferenceType.GET_ATT "S.Outputs.X" 44].filter
          (fun r => decide (specShouldFlag ⟨["P"], ["A"], [], [], ⟨["S.Outputs.X"], []⟩⟩ r))).map
        (unresolvedDiagnostic "Resources:\n")) :=
  ⟨by decide,
    resolution_dichotomy "Resources:\n" ⟨["P"], ["A"], [], [], ⟨["S.Outputs.X"], []⟩⟩
      [Reference.mk ReferenceType.REF "B" 30,
       Reference.mk ReferenceType.GET_ATT "S.Outputs.X" 44] (by decide)⟩

theorem removeFirstParam_subset (k : String) :
    ∀ (l : List SubStackParam) (p : SubStackParam),
      p ∈ removeFirstParam k l → p ∈ l := by
  intro l
  induction l with
  | nil => intro p h; simp [removeFirstParam] at h
  | cons q qs ih =>
      intro p h
      by_cases hq : q.parameterName = k
      · simp only [removeFirstParam, if_pos hq] at h
        exact List.mem_cons_of_mem q h
      · simp only [removeFirstParam, if_neg hq] at h
        rcases List.mem_cons.mp h with h | h
        · exact List.mem_cons.mpr (Or.inl h)
        · exact List.mem_cons_of_mem q (ih p h)

theorem mem_removeFirstParam_of_ne (k : String) :
    ∀ (l : List SubStackParam) (p : SubStackParam),
      p ∈ l → p.parameterName ≠ k → p ∈ removeFirstParam k l := by
  intro l
  induction l with
  | nil => intro p h; simp at h
  | cons q qs ih =>
      intro p h hne
      by_cases hq : q.parameterName = k
      · simp only [removeFirstParam, if_pos hq]
        rcases List.mem_cons.mp h with h | h
        · exact absurd (h ▸ hq) hne
        · exact h
      · simp only [removeFirstParam, if_neg hq]
        rcases List.mem_cons.mp h with h | h
        · exact List.mem_cons.mpr (Or.inl h)
        · exact List.mem_cons_of_mem q (ih p h hne)

theorem supplied_loop_spec (fullText : String) :
    ∀ (supplied : List SuppliedParam) (remaining : List SubStackParam),
    (∀ sp ∈ supplied, (getRowColumnPosition fullText sp.keyRange0).isSome) →
    ∃ ds rem,
      buildSubStackParamDiagsSupplied fullText supplied remaining = some (ds, rem) ∧
      (∀ p ∈ rem, p ∈ remaining) ∧
      (∀ sp ∈ supplied, (∀ dp ∈ remaining, dp.parameterName ≠ sp.stringKey) →
        unknownParamDiagnostic fullText sp ∈ ds) ∧
      (∀ dp ∈ remaining, (∀ sp ∈ supplied, sp.stringKey ≠ dp.parameterName) →
        dp ∈ rem) := by
  intro supplied
  induction supplied with
  | nil =>
      intro remaining _
      exact ⟨[], remaining, rfl, fun p hp => hp, fun sp hsp => absurd hsp (by simp),
        fun dp hdp _ => hdp⟩
  | cons sp rest ih =>
      intro remaining hpos
      have hrest : ∀ x ∈ rest, (getRowColumnPosition fullText x.keyRange0).isSome :=
        fun x hx => hpos x (List.mem_cons_of_mem sp hx)
      by_cases hany : remaining.any (fun rp => rp.parameterName == sp.stringKey)
      · obtain ⟨ds, rem, heq, hsub, hdiag, hkeep⟩ :=
          ih (removeFirstParam sp.stringKey remaining) hrest
        refine ⟨ds, rem, ?_, ?_, ?_, ?_⟩
        · simp only [buildSubStackParamDiagsSupplied, if_pos hany]
          exact heq
        · exact fun p hp => removeFirstParam_subset _ _ p (hsub p hp)
        · intro sp' hsp' hnone
          rcases List.mem_cons.mp hsp' with h | h
          · subst h
            obtain ⟨rp, hrp, hrpeq⟩ := List.any_eq_true.mp hany
            exact absurd (by simpa using hrpeq) (hnone rp hrp)
          · exact hdiag sp' h fun dp hdp =>
              hnone dp (removeFirstParam_subset _ _ dp hdp)
        · intro dp hdp hnone
          have hne : dp.parameterName ≠ sp.stringKey :=
            fun e => hnone sp (List.mem_cons_self sp rest) e.symm
          exact hkeep dp (mem_removeFirstParam_of_ne _ _ dp hdp hne)
            (fun sp' hsp' => hnone sp' (List.mem_cons_of_mem sp hsp'))
      · have hsp := hpos sp (List.mem_cons_self sp rest)
        obtain ⟨pos, hposeq⟩ := Option.isSome_iff_exists.mp hsp
        obtain ⟨ds, rem, heq, hsub, hdiag, hkeep⟩ := ih remaining hrest
        refine ⟨unknownParamDiagnostic fullText sp :: ds, rem, ?_, hsub, ?_, ?_⟩
        · simp only [buildSubStackParamDiagsSupplied, if_neg hany, Option.bind_eq_bind,
            hposeq, Option.some_bind, heq]
          simp [unknownParamDiagnostic, hposeq]
        · intro sp' hsp' hnone
          rcases List.mem_cons.mp hsp' with h | h
          · subst h
            exact List.mem_cons_self _ _
          · exact List.mem_cons_of_mem _ (hdiag sp' h hnone)
        · intro dp hdp hnone
          exact hkeep dp hdp fun sp' hsp' => hnone sp' (List.mem_cons_of_mem sp hsp')

theorem buildSubStackParamDiagsRemaining_eq (fullText : String) (r0 : Nat)
    (remaining : List SubStackParam) (pos : RowCol)
    (hpos : getRowColumnPosition fullText r0 = some pos) :
    buildSubStackParamDiagsRemaining fullText (some r0) remaining =
      some (remaining.map fun p =>
        createDiagnostic pos ("Properties".length)
          (missingParamSeverity p) (missingParamMessage p)) := by
  unfold buildSubStackParamDiagsRemaining
  cases remaining with
  | nil => simp
  | cons p ps => simp [hpos]

/-- C7: sub-stack parameter matching for a child-stack resource with a
literal TemplateURL and a `Properties.Parameters` block.  Each supplied
parameter whose name is not declared by the child yields an Error
diagnostic at that parameter key's position; afterwards each declared
parameter never supplied yields a diagnostic at the `Parameters` block's
own key position with severity and message by default-presence; and in
particular an empty supplied block against a single declared parameter
with a default yields exactly one Warning and no Error. -/
theorem substack_parameter_matching (fullText : String)
    (supplied : List SuppliedParam) (declared : List SubStackParam) (blockR0 : Nat)
    (hsup : ∀ sp ∈ supplied, (getRowColumnPosition fullText sp.keyRange0).isSome)
    (hblock : (getRowColumnPosition fullText blockR0).isSome) :
    (∃ l, buildInvalidSubStackParameterDiagnosticsOne fullText supplied
        (some blockR0) declared = some l ∧
      (∀ sp ∈ supplied, (∀ dp ∈ declared, dp.parameterName ≠ sp.stringKey) →
        unknownParamDiagnostic fullText sp ∈ l) ∧
      (∀ dp ∈ declared, (∀ sp ∈ supplied, sp.stringKey ≠ dp.parameterName) →
        createDiagnostic ((getRowColumnPosition fullText blockR0).getD ⟨0, 0⟩)
          ("Properties".length) (missingParamSeverity dp) (missingParamMessage dp) ∈ l)) ∧
    (∀ p : SubStackParam, p.hasDefault = true →
      ∀ pos, getRowColumnPosition fullText blockR0 = some pos →
      buildInvalidSubStackParameterDiagnosticsOne fullText [] (some blockR0) [p] =
        some [createDiagnostic pos ("Properties".length) Severity.Warning
          (missingParamMessage p)]) := by
  obtain ⟨pos, hposeq⟩ := Option.isSome_iff_exists.mp hblock
  constructor
  · obtain ⟨ds, rem, heq, hsub, hdiag, hkeep⟩ :=
      supplied_loop_spec fullText supplied declared hsup
    refine ⟨ds ++ rem.map (fun p =>
        createDiagnostic pos ("Properties".length)
          (missingParamSeverity p) (missingParamMessage p)), ?_, ?_, ?_⟩
    · simp only [buildInvalidSubStackParameterDiagnosticsOne, Option.bind_eq_bind,
        heq, Option.some_bind,
        buildSubStackParamDiagsRemaining_eq fullText blockR0 rem pos hposeq]
    · intro sp hsp hnone
      exact List.mem_append_left _ (hdiag sp hsp hnone)
    · intro dp hdp hnone
      refine List.mem_append_right _ ?_
      rw [hposeq]
      exact List.mem_map.mpr ⟨dp, hkeep dp hdp hnone, rfl⟩
  · intro p hdef pos' hpos'
    simp only [buildInvalidSubStackParameterDiagnosticsOne,
      buildSubStackParamDiagsSupplied, Option.bind_eq_bind, Option.some_bind,
      buildSubStackParamDiagsRemaining_eq fullText blockR0 [p] pos' hpos',
      List.map_cons, List.map_nil, List.nil_append]
    simp [missingParamSeverity, hdef]

theorem substack_parameter_matching_witness :
    (∀ sp ∈ [SuppliedParam.mk "Foo" 20],
      (getRowColumnPosition "Resources:\n" sp.keyRange0).isSome) ∧
    (getRowColumnPosition "Resources:\n" 15).isSome ∧
    ((∃ l, buildInvalidSubStackParameterDiagnosticsOne "Resources:\n"
        [SuppliedParam.mk "Foo" 20] (some 15) [SubStackParam.mk "Baz" false] = some l ∧
      (∀ sp ∈ [SuppliedParam.mk "Foo" 20],
        (∀ dp ∈ [SubStackParam.mk "Baz" false], dp.parameterName ≠ sp.stringKey) →
        unknownParamDiagnostic "Resources:\n" sp ∈ l) ∧
      (∀ dp ∈ [SubStackParam.mk "Baz" false],
        (∀ sp ∈ [SuppliedParam.mk "Foo" 20], sp.stringKey ≠ dp.parameterName) →
        createDiagnostic ((getRowColumnPosition "Resources:\n" 15).getD ⟨0, 0⟩)
          ("Properties".length) (missingParamSeverity dp) (missingParamMessage dp) ∈ l)) ∧
    (∀ p : SubStackParam, p.hasDefault = true →
      ∀ pos, getRowColumnPosition "Resources:\n" 15 = some pos →
      buildInvalidSubStackParameterDiagnosticsOne "Resources:\n" [] (some 15) [p] =
        some [createDiagnostic pos ("Properties".length) Severity.Warning
          (missingParamMessage p)])) :=
  ⟨by decide, by decide,
    substack_parameter_matching "Resources:\n" [SuppliedParam.mk "Foo" 20]
      [SubStackParam.mk "Baz" false] 15 (by decide) (by decide)⟩

theorem processSubStackPairs_append (fullText parentPath : String)
    (fs : String → Except String ChildDoc) :
    ∀ (l1 l2 : List Yn) (r1 r2 : List (List String ×
        List (String × List SubStackParam) × List Diagnostic)),
      processSubStackPairs fullText parentPath fs l1 = some r1 →
      processSubStackPairs fullText parentPath fs l2 = some r2 →
      processSubStackPairs fullText parentPath fs (l1 ++ l2) = some (r1 ++ r2) := by
  intro l1
  induction l1 with
  | nil =>
      intro l2 r1 r2 h1 h2
      simp only [processSubStackPairs] at h1
      obtain rfl : r1 = [] := by injection h1 with h; exact h.symm
      simpa using h2
  | cons p ps ih =>
      intro l2 r1 r2 h1 h2
      simp only [processSubStackPairs, Option.bind_eq_bind] at h1 ⊢
      cases hp : processSubStackPair fullText parentPath fs p with
      | none => rw [hp] at h1; simp at h1
      | some r =>
          rw [hp] at h1
          simp only [Option.some_bind] at h1 ⊢
          cases hps : processSubStackPairs fullText parentPath fs ps with
          | none => rw [hps] at h1; simp at h1
          | some rs =>
              rw [hps] at h1
              simp only [Option.some_bind, Option.some.injEq] at h1
              subst h1
              have hih := ih l2 rs r2 hps h2
              show (processSubStackPairs fullText parentPath fs (ps ++ l2)).bind
                  (fun rs => some (r :: rs)) = some (r :: (rs ++ r2))
              rw [hih]
              rfl

/-- C8: a child-template load or parse failure is fail-soft.  For a
sub-stack resource pair whose `Properties.TemplateURL` is a literal
string and whose file fails to load, the walk produces exactly one Error
diagnostic at the TemplateURL value's position whose message carries the
file path and the underlying failure detail; the pair contributes zero
outputs and an empty parameter list under its URL; and the walk of the
surrounding pairs continues on both sides, its results concatenated
rather than the pass aborting. -/
theorem child_template_load_failure_fail_soft (fullText parentPath : String)
    (fs : String → Except String ChildDoc) (stringKey : String) (kr : Nat)
    (pt : Option String) (v properties : Yn) (tk : String) (tkr : Nat)
    (tut : Option String) (tsk : ScalarKind) (tst : Option String)
    (tuValue : String) (tuR0 : Nat) (err : String) (pos : RowCol)
    (hprops : ynGetCollection v "Properties" = some properties)
    (htu : getNodeItemByStringKey properties "TemplateURL" =
      some (Yn.pair tk tkr tut (Yn.scalar tsk tst tuValue tuR0)))
    (hfs : fs (parentPath ++ "/" ++ tuValue) = Except.error err)
    (hpos : getRowColumnPosition fullText tuR0 = some pos) :
    processSubStackPair fullText parentPath fs (Yn.pair stringKey kr pt v) =
      some ([], [(tuValue, [])],
        [createDiagnostic pos tuValue.length Severity.Error
          ("Unable to load or parse template file, \x27" ++
            (parentPath ++ "/" ++ tuValue) ++ "\x27. Error encountered: " ++ err)]) ∧
    (∀ (before after : List Yn)
        (rb ra : List (List String × List (String × List SubStackParam) × List Diagnostic)),
      processSubStackPairs fullText parentPath fs before = some rb →
      processSubStackPairs fullText parentPath fs after = some ra →
      getSubStackReferenceables fullText parentPath fs
          (before ++ Yn.pair stringKey kr pt v :: after) =
        some (⟨(rb.map (fun x => x.1)).flatten ++ (ra.map (fun x => x.1)).flatten,
            (rb.map (fun x => x.2.1)).flatten ++ (tuValue, []) ::
              (ra.map (fun x => x.2.1)).flatten⟩,
          (rb.map (fun x => x.2.2)).flatten ++
            createDiagnostic pos tuValue.length Severity.Error
              ("Unable to load or parse template file, \x27" ++
                (parentPath ++ "/" ++ tuValue) ++ "\x27. Error encountered: " ++ err) ::
              (ra.map (fun x => x.2.2)).flatten)) := by
  have hone : processSubStackPair fullText parentPath fs (Yn.pair stringKey kr pt v) =
      some ([], [(tuValue, [])],
        [createDiagnostic pos tuValue.length Severity.Error
          ("Unable to load or parse template file, \x27" ++
            (parentPath ++ "/" ++ tuValue) ++ "\x27. Error encountered: " ++ err)]) := by
    have hurl : ynGetString properties "TemplateURL" = some tuValue := by
      unfold ynGetString
      rw [htu]
    simp only [processSubStackPair, hprops, hurl, hfs, htu, hpos]
  refine ⟨hone, ?_⟩
  intro before after rb ra hb ha
  have hmid : processSubStackPairs fullText parentPath fs
      (Yn.pair stringKey kr pt v :: after) =
      some (([], [(tuValue, [])],
        [createDiagnostic pos tuValue.length Severity.Error
          ("Unable to load or parse template file, \x27" ++
            (parentPath ++ "/" ++ tuValue) ++ "\x27. Error encountered: " ++ err)]) :: ra) := by
    simp only [processSubStackPairs, Option.bind_eq_bind, hone, Option.some_bind, ha]
  have hall := processSubStackPairs_append fullText parentPath fs before
    (Yn.pair stringKey kr pt v :: after) rb _ hb hmid
  unfold getSubStackReferenceables
  rw [hall]
  simp

theorem child_template_load_failure_fail_soft_witness :
    getRowColumnPosition "Resources:\n" 43 = some ⟨1, 32⟩ ∧
    processSubStackPair "Resources:\n" "dir" (fun _ => Except.error "ENOENT")
        (Yn.pair "Child" 12 none (Yn.map none [Yn.pair "Properties" 20 none
          (Yn.map none [Yn.pair "TemplateURL" 30 none
            (Yn.scalar ScalarKind.PLAIN none "missing.yaml" 43)])])) =
      some ([], [("missing.yaml", [])],
        [createDiagnostic ⟨1, 32⟩ "missing.yaml".length Severity.Error
          ("Unable to load or parse template file, \x27" ++
            ("dir" ++ "/" ++ "missing.yaml") ++ "\x27. Error encountered: " ++
            "ENOENT")]) :=
  ⟨by decide,
    (child_template_load_failure_fail_soft "Resources:\n" "dir"
      (fun _ => Except.error "ENOENT") "Child" 12 none
      (Yn.map none [Yn.pair "Properties" 20 none
        (Yn.map none [Yn.pair "TemplateURL" 30 none
          (Yn.scalar ScalarKind.PLAIN none "missing.yaml" 43)])])
      (Yn.map none [Yn.pair "TemplateURL" 30 none
        (Yn.scalar ScalarKind.PLAIN none "missing.yaml" 43)])
      "TemplateURL" 30 none ScalarKind.PLAIN none "missing.yaml" 43 "ENOENT" ⟨1, 32⟩
      rfl rfl rfl (by decide)).1⟩

theorem tagIsIntrinsic_jsOr {a b : Option String}
    (ha : tagIsIntrinsic a = false) (hb : tagIsIntrinsic b = false) :
    tagIsIntrinsic (jsOr a b) = false := by
  cases a with
  | some t => exact ha
  | none => exact hb

theorem classifyScalar_empty (kind : ScalarKind) (tag sk : Option String)
    (v : String) (r0 : Nat) (htag : tagIsIntrinsic tag = false)
    (hsk : skOk sk = true) :
    classifyScalar kind tag sk v r0 = [] := by
  have hchain : ∀ t : String, tagIsIntrinsic (some t) = false →
      t ≠ "!Ref" ∧ t ≠ "!Sub" ∧ t ≠ "!GetAtt" ∧ t ≠ "!If" ∧
        t ≠ "!FindInMap" ∧ t ≠ "DependsOn" := by
    intro t ht
    simp only [tagIsIntrinsic, Bool.or_eq_false_iff, beq_eq_false_iff_ne] at ht
    tauto
  have h1 : ¬(jsOr tag sk = some "!If" ∨ jsOr tag sk = some "!FindInMap" ∨
      jsOr tag sk = some "DependsOn") := by
    cases tag with
    | some t =>
        obtain ⟨-, -, -, h4, h5, h6⟩ := hchain t htag
        simp [jsOr]
        exact ⟨h4, h5, h6⟩
    | none =>
        cases sk with
        | none => simp [jsOr]
        | some s =>
            simp only [skOk, keyIsTrigger, Bool.not_eq_true',
              Bool.or_eq_false_iff, beq_eq_false_iff_ne] at hsk
            simp [jsOr]
            exact ⟨hsk.1.1, hsk.1.2, hsk.2⟩
  unfold classifyScalar
  rw [if_neg h1]
  rw [if_neg (fun he => by
    rw [he] at htag
    exact absurd htag (by simp [tagIsIntrinsic]))]
  rw [if_neg (fun he => by
    rw [he.1] at htag
    exact absurd htag (by simp [tagIsIntrinsic]))]
  rw [if_neg (fun he => by
    rw [he] at htag
    exact absurd htag (by simp [tagIsIntrinsic]))]

mutual

theorem noIntrinsic_extract : ∀ (n : Yn) (sk inh : Option String),
    noIntrinsicNode n = true → tagIsIntrinsic inh = false → skOk sk = true →
    getSubNodesWhichReference sk inh n = []
  | Yn.scalar kind tg v r0, sk, inh, hn, hinh, hsk => by
      have htg : tagIsIntrinsic tg = false := by
        simpa [noIntrinsicNode] using hn
      show classifyScalar kind (jsOr tg inh) sk v r0 = []
      exact classifyScalar_empty kind (jsOr tg inh) sk v r0
        (tagIsIntrinsic_jsOr htg hinh) hsk
  | Yn.seq t items, sk, inh, hn, hinh, hsk => by
      simp only [noIntrinsicNode, Bool.and_eq_true, Bool.not_eq_true'] at hn
      match items, hn with
      | [], _ => rfl
      | first :: rest, hn => 
          show getSubNodesWhichReference none (jsOr t inh) first ++
              getSubNodesListPlain rest = []
          have hfirst := noIntrinsic_extract first none (jsOr t inh)
            (by
              have := hn.2
              simp only [noIntrinsicList, Bool.and_eq_true] at this
              exact this.1)
            (tagIsIntrinsic_jsOr hn.1 hinh) rfl
          have hrest := noIntrinsic_extract_plain rest
            (by
              have := hn.2
              simp only [noIntrinsicList, Bool.and_eq_true] at this
              exact this.2)
          rw [hfirst, hrest]
          rfl
  | Yn.map t items, sk, inh, hn, hinh, hsk => by
      simp only [noIntrinsicNode, Bool.and_eq_true, Bool.not_eq_true'] at hn
      show getSubNodesListTagged (jsOr t inh) items = []
      exact noIntrinsic_extract_tagged items (jsOr t inh) hn.2
        (tagIsIntrinsic_jsOr hn.1 hinh)
  | Yn.pair k kr pt v, sk, inh, hn, hinh, hsk => by
      simp only [noIntrinsicNode, Bool.and_eq_true, Bool.not_eq_true'] at hn
      show getSubNodesWhichReference (some k) (jsOr pt inh) v = []
      exact noIntrinsic_extract v (some k) (jsOr pt inh) hn.2
        (tagIsIntrinsic_jsOr hn.1.2 hinh)
        (by simp [skOk, hn.1.1])

theorem noIntrinsic_extract_plain : ∀ (items : List Yn),
    noIntrinsicList items = true → getSubNodesListPlain items = []
  | [], _ => rfl
  | x :: xs, h => by
      simp only [noIntrinsicList, Bool.and_eq_true] at h
      show getSubNodesWhichReference none none x ++ getSubNodesListPlain xs = []
      rw [noIntrinsic_extract x none none h.1 rfl rfl,
        noIntrinsic_extract_plain xs h.2]
      rfl

theorem noIntrinsic_extract_tagged : ∀ (items : List Yn) (t : Option String),
    noIntrinsicList items = true → tagIsIntrinsic t = false →
    getSubNodesListTagged t items = []
  | [], _, _, _ => rfl
  | x :: xs, t, h, ht => by
      simp only [noIntrinsicList, Bool.and_eq_true] at h
      show getSubNodesWhichReference none t x ++ getSubNodesListTagged t xs = []
      rw [noIntrinsic_extract x none t h.1 ht rfl,
        noIntrinsic_extract_tagged xs t h.2 ht]
      rfl

end

/-- C9: refuted as stated.  A document containing no intrinsic-tag usage
can still produce diagnostics: one child-stack resource whose
TemplateURL fails to load yields a load-failure Error diagnostic, so the
analysis pass returns a non-empty list. -/
theorem no_intrinsic_usage_empty_diagnostics_counterexample :
    noIntrinsicDoc noIntrinsicSubStackDoc = true ∧
    checkYaml noIntrinsicSubStackDoc noIntrinsicSubStackText "dir"
        (fun _ => Except.error "ENOENT") =
      some [createDiagnostic ⟨4, 19⟩ ("missing.yaml".length) Severity.Error
        ("Unable to load or parse template file, \x27dir/missing.yaml\x27. Error encountered: ENOENT")] ∧
    checkYaml noIntrinsicSubStackDoc noIntrinsicSubStackText "dir"
        (fun _ => Except.error "ENOENT") ≠ some [] := by
  refine ⟨by decide, by decide, by decide⟩

theorem noIntrinsicList_forall : ∀ (l : List Yn), noIntrinsicList l = true →
    ∀ x ∈ l, noIntrinsicNode x = true := by
  intro l
  induction l with
  | nil => intro _ x hx; simp at hx
  | cons y ys ih =>
      intro h x hx
      simp only [noIntrinsicList, Bool.and_eq_true] at h
      rcases List.mem_cons.mp hx with hx | hx
      · exact hx ▸ h.1
      · exact ih h.2 x hx

theorem docGet_noIntrinsic {items : List Yn} {k : String}
    (h : noIntrinsicList items = true) :
    ∀ n, docGet (some items) k = some n → noIntrinsicNode n = true := by
  intro n hn
  have hn' : (match items.find? (fun i => stringKeyOf i == some k) with
      | some (Yn.pair _ _ _ v) => some v
      | _ => none) = some n := hn
  clear hn
  cases hfind : items.find? (fun i => stringKeyOf i == some k) with
  | none => rw [hfind] at hn'; exact absurd hn' (by simp)
  | some p =>
      rw [hfind] at hn'
      have hp := noIntrinsicList_forall items h p (List.mem_of_find?_eq_some hfind)
      cases p with
      | pair k' kr t v =>
          have hv : v = n := by injection hn'
          subst hv
          simp only [noIntrinsicNode, Bool.and_eq_true] at hp
          exact hp.2
      | scalar kind tg vv rr => exact absurd hn' (by simp)
      | seq t its => exact absurd hn' (by simp)
      | map t its => exact absurd hn' (by simp)

theorem extractTop_empty (o : Option Yn)
    (h : ∀ n, o = some n → noIntrinsicNode n = true) : extractTop o = [] := by
  match o with
  | none => rfl
  | some (Yn.scalar kind tg v r0) => rfl
  | some (Yn.seq t items) =>
      exact noIntrinsic_extract _ none none (h _ rfl) rfl rfl
  | some (Yn.map t items) =>
      exact noIntrinsic_extract _ none none (h _ rfl) rfl rfl
  | some (Yn.pair k kr t v) =>
      exact noIntrinsic_extract _ none none (h _ rfl) rfl rfl

/-- C9 (amended): a document containing no intrinsic-tag usage *and no
child-stack resources* yields an empty diagnostic list from one full
analysis pass.  (The counterexample forces the child-stack exclusion:
sub-stack processing emits diagnostics independent of intrinsic tags.) -/
theorem no_intrinsic_no_substack_empty_diagnostics
    (docItems : Option (List Yn)) (fullText parentPath : String)
    (fs : String → Except String ChildDoc)
    (h1 : noIntrinsicDoc docItems = true)
    (h2 : (findSubStackNodePairsDoc docItems).isEmpty = true) :
    checkYaml docItems fullText parentPath fs = some [] := by
  have hpairs : findSubStackNodePairsDoc docItems = [] := by
    cases hx : findSubStackNodePairsDoc docItems with
    | nil => rfl
    | cons a l => rw [hx] at h2; simp [List.isEmpty] at h2
  have hrefs : getNodesWhichReference docItems = [] := by
    unfold getNodesWhichReference
    cases docItems with
    | none => rfl
    | some items =>
        have hni : noIntrinsicList items = true := h1
        rw [extractTop_empty _ (docGet_noIntrinsic hni),
          extractTop_empty _ (docGet_noIntrinsic hni)]
        rfl
  cases docItems with
  | none => rfl
  | some items =>
      have hgr : getReferenceables (some items) fullText parentPath fs =
          some (⟨getYamlNodeKeys (docGet (some items) "Parameters"),
            getYamlNodeKeys (docGet (some items) "Resources"),
            getYamlNodeKeys (docGet (some items) "Mappings"),
            getYamlNodeKeys (docGet (some items) "Conditions"), ⟨[], []⟩⟩, []) := by
        unfold getReferenceables
        rw [hpairs]
        rfl
      simp only [checkYaml, Option.bind_eq_bind, hgr, Option.some_bind, hrefs, hpairs]
      rfl

theorem no_intrinsic_no_substack_empty_diagnostics_witness :
    noIntrinsicDoc (some [Yn.pair "Resources" 0 none (Yn.map none [
      Yn.pair "A" 13 none (Yn.map none [Yn.pair "Type" 20 none
        (Yn.scalar ScalarKind.PLAIN none "AWS::S3::Bucket" 26)])])]) = true ∧
    (findSubStackNodePairsDoc (some [Yn.pair "Resources" 0 none (Yn.map none [
      Yn.pair "A" 13 none (Yn.map none [Yn.pair "Type" 20 none
        (Yn.scalar ScalarKind.PLAIN none "AWS::S3::Bucket" 26)])])])).isEmpty = true ∧
    checkYaml (some [Yn.pair "Resources" 0 none (Yn.map none [
      Yn.pair "A" 13 none (Yn.map none [Yn.pair "Type" 20 none
        (Yn.scalar ScalarKind.PLAIN none "AWS::S3::Bucket" 26)])])])
      "Resources:\n" "dir" (fun _ => Except.error "e") = some [] :=
  ⟨by decide, by decide,
    no_intrinsic_no_substack_empty_diagnostics
      (some [Yn.pair "Resources" 0 none (Yn.map none [
        Yn.pair "A" 13 none (Yn.map none [Yn.pair "Type" 20 none
          (Yn.scalar ScalarKind.PLAIN none "AWS::S3::Bucket" 26)])])])
      "Resources:\n" "dir" (fun _ => Except.error "e") (by decide) (by decide)⟩

theorem termMatches_ne_nil : ∀ (l : List Char) (i : Nat), '\n' ∈ l →
    termMatches l i ≠ [] := by
  intro l
  induction l with
  | nil => intro i h; simp at h
  | cons c cs ih =>
      intro i h
      match cs with
      | [] =>
          have hc : c = '\n' := by
            have := h
            simp at this
            exact this.symm
          simp [termMatches, hc]
      | c2 :: rest =>
          by_cases hc1 : c = '\n'
          · simp [termMatches, hc1]
          · by_cases hc2 : c = '\r' ∧ c2 = '\n'
            · simp [termMatches, hc1, hc2]
            · have hmem : '\n' ∈ c2 :: rest := by
                rcases List.mem_cons.mp h with h | h
                · exact absurd h.symm hc1
                · exact h
              simp only [termMatches, if_neg hc1, if_neg hc2]
              exact ih (i + 1) hmem

theorem getRowColumnPosition_isSome_of_newline (text : String) (a : Nat)
    (h : '\n' ∈ text.toList.take a) :
    (getRowColumnPosition text a).isSome := by
  simp only [getRowColumnPosition]
  cases hlast : (termMatches (text.toList.take a) 0).getLast? with
  | some p => simp [hlast]
  | none =>
      exact absurd (List.getLast?_eq_none_iff.mp hlast)
        (termMatches_ne_nil _ 0 h)

theorem newline_take_mono {l : List Char} {a b : Nat} (hab : a ≤ b)
    (h : '\n' ∈ l.take a) : '\n' ∈ l.take b := by
  have hsub : l.take a ⊆ l.take b := by
    intro x hx
    rw [← Nat.min_eq_left hab, ← List.take_take] at hx
    exact List.take_subset _ _ hx
  exact hsub h

/-- C10: the pseudo-parameter exclusion applies only to `!Ref` scalars.
A `${...}` placeholder inside a `!Sub` scalar whose inner text begins
with `AWS::` is still extracted as a Reference, and because its kind is
Sub (not GetAtt) it is checked against the local name lists; when no
local name equals the inner text, an unresolved-reference Error
diagnostic is produced for it. -/
theorem sub_aws_pseudo_parameter_still_checked (kind : ScalarKind)
    (pre innerRest rest : List Char) (r0 : Nat) (fullText : String)
    (referenceables : Referenceables)
    (hpre : hasDollarBrace pre = false)
    (hinner : '\x7d' ∉ ('A' :: 'W' :: 'S' :: ':' :: ':' :: innerRest))
    (hnl : '\n' ∈ fullText.toList.take r0)
    (hlocal : String.mk ('A' :: 'W' :: 'S' :: ':' :: ':' :: innerRest) ∉
      referenceables.parameters ++ referenceables.resources ++
        referenceables.conditions ++ referenceables.mappings) :
    ∃ l,
      buildInvalidReferenceDiagnostics fullText referenceables
        (getSubNodesWhichReference none none (Yn.scalar kind (some "!Sub")
          (String.mk (pre ++ '$' :: '\x7b' ::
            (('A' :: 'W' :: 'S' :: ':' :: ':' :: innerRest) ++ '\x7d' :: rest))) r0)) =
        some l ∧
      (⟨ReferenceType.SUB, String.mk ('A' :: 'W' :: 'S' :: ':' :: ':' :: innerRest),
          r0 + 5 + nodeTypeToSubOffset kind + 2 + pre.length⟩ : Reference) ∈
        getSubNodesWhichReference none none (Yn.scalar kind (some "!Sub")
          (String.mk (pre ++ '$' :: '\x7b' ::
            (('A' :: 'W' :: 'S' :: ':' :: ':' :: innerRest) ++ '\x7d' :: rest))) r0) ∧
      unresolvedDiagnostic fullText
        ⟨ReferenceType.SUB, String.mk ('A' :: 'W' :: 'S' :: ':' :: ':' :: innerRest),
          r0 + 5 + nodeTypeToSubOffset kind + 2 + pre.length⟩ ∈ l ∧
      (unresolvedDiagnostic fullText
        ⟨ReferenceType.SUB, String.mk ('A' :: 'W' :: 'S' :: ':' :: ':' :: innerRest),
          r0 + 5 + nodeTypeToSubOffset kind + 2 + pre.length⟩).severity =
        Severity.Error := by
  have hext : getSubNodesWhichReference none none (Yn.scalar kind (some "!Sub")
      (String.mk (pre ++ '$' :: '\x7b' ::
        (('A' :: 'W' :: 'S' :: ':' :: ':' :: innerRest) ++ '\x7d' :: rest))) r0) =
      ((pre.length, String.mk ('A' :: 'W' :: 'S' :: ':' :: ':' :: innerRest)) ::
        subMatchesAux rest
          (pre.length + ('A' :: 'W' :: 'S' :: ':' :: ':' :: innerRest).length + 3)).map
        (fun m => ⟨ReferenceType.SUB, m.2,
          r0 + 5 + nodeTypeToSubOffset kind + 2 + m.1⟩) := by
    show classifyScalar kind (some "!Sub") none _ r0 = _
    rw [classifyScalar_sub]
    rw [show subMatchesStr (String.mk (pre ++ '$' :: '\x7b' ::
          (('A' :: 'W' :: 'S' :: ':' :: ':' :: innerRest) ++ '\x7d' :: rest)))
        = subMatchesAux (pre ++ '$' :: '\x7b' ::
          (('A' :: 'W' :: 'S' :: ':' :: ':' :: innerRest) ++ '\x7d' :: rest)) 0 from rfl]
    rw [subMatchesAux_decomp pre _ rest 0 hpre hinner]
    simp
  have hmemref : (⟨ReferenceType.SUB,
      String.mk ('A' :: 'W' :: 'S' :: ':' :: ':' :: innerRest),
      r0 + 5 + nodeTypeToSubOffset kind + 2 + pre.length⟩ : Reference) ∈
      getSubNodesWhichReference none none (Yn.scalar kind (some "!Sub")
        (String.mk (pre ++ '$' :: '\x7b' ::
          (('A' :: 'W' :: 'S' :: ':' :: ':' :: innerRest) ++ '\x7d' :: rest))) r0) := by
    rw [hext]
    exact List.mem_map.mpr
      ⟨(pre.length, String.mk ('A' :: 'W' :: 'S' :: ':' :: ':' :: innerRest)),
        List.mem_cons_self _ _, rfl⟩
  have hpos : ∀ r ∈ getSubNodesWhichReference none none (Yn.scalar kind (some "!Sub")
      (String.mk (pre ++ '$' :: '\x7b' ::
        (('A' :: 'W' :: 'S' :: ':' :: ':' :: innerRest) ++ '\x7d' :: rest))) r0),
      (getRowColumnPosition fullText r.absoluteKeyPosition).isSome := by
    intro r hr
    rw [hext] at hr
    obtain ⟨m, _, hfm⟩ := List.mem_map.mp hr
    rw [← hfm]
    apply getRowColumnPosition_isSome_of_newline
    refine newline_take_mono ?_ hnl
    show r0 ≤ r0 + 5 + nodeTypeToSubOffset kind + 2 + m.1
    omega
  refine ⟨_, buildInvalidReferenceDiagnostics_spec fullText referenceables _ hpos,
    hmemref, ?_, rfl⟩
  refine List.mem_map.mpr ⟨_, List.mem_filter.mpr ⟨hmemref, ?_⟩, rfl⟩
  exact decide_eq_true (Or.inr ⟨by simp, hlocal⟩)

theorem sub_aws_pseudo_parameter_still_checked_witness :
    hasDollarBrace [] = false ∧
    '\x7d' ∉ ('A' :: 'W' :: 'S' :: ':' :: ':' :: ['R', 'e', 'g', 'i', 'o', 'n']) ∧
    '\n' ∈ "Resources:\n  X: !Sub abc".toList.take 20 ∧
    String.mk ('A' :: 'W' :: 'S' :: ':' :: ':' :: ['R', 'e', 'g', 'i', 'o', 'n']) ∉
      (⟨["P"], ["R"], [], [], ⟨[], []⟩⟩ : Referenceables).parameters ++
        (⟨["P"], ["R"], [], [], ⟨[], []⟩⟩ : Referenceables).resources ++
        (⟨["P"], ["R"], [], [], ⟨[], []⟩⟩ : Referenceables).conditions ++
        (⟨["P"], ["R"], [], [], ⟨[], []⟩⟩ : Referenceables).mappings ∧
    (∃ l,
      buildInvalidReferenceDiagnostics "Resources:\n  X: !Sub abc"
        (⟨["P"], ["R"], [], [], ⟨[], []⟩⟩ : Referenceables)
        (getSubNodesWhichReference none none (Yn.scalar ScalarKind.PLAIN (some "!Sub")
          (String.mk ([] ++ '$' :: '\x7b' ::
            (('A' :: 'W' :: 'S' :: ':' :: ':' :: ['R', 'e', 'g', 'i', 'o', 'n']) ++
              '\x7d' :: []))) 20)) = some l ∧
      (⟨ReferenceType.SUB,
          String.mk ('A' :: 'W' :: 'S' :: ':' :: ':' :: ['R', 'e', 'g', 'i', 'o', 'n']),
          20 + 5 + nodeTypeToSubOffset ScalarKind.PLAIN + 2 + ([] : List Char).length⟩ : Reference) ∈
        getSubNodesWhichReference none none (Yn.scalar ScalarKind.PLAIN (some "!Sub")
          (String.mk ([] ++ '$' :: '\x7b' ::
            (('A' :: 'W' :: 'S' :: ':' :: ':' :: ['R', 'e', 'g', 'i', 'o', 'n']) ++
              '\x7d' :: []))) 20) ∧
      unresolvedDiagnostic "Resources:\n  X: !Sub abc"
        ⟨ReferenceType.SUB,
          String.mk ('A' :: 'W' :: 'S' :: ':' :: ':' :: ['R', 'e', 'g', 'i', 'o', 'n']),
          20 + 5 + nodeTypeToSubOffset ScalarKind.PLAIN + 2 + ([] : List Char).length⟩ ∈ l ∧
      (unresolvedDiagnostic "Resources:\n  X: !Sub abc"
        ⟨ReferenceType.SUB,
          String.mk ('A' :: 'W' :: 'S' :: ':' :: ':' :: ['R', 'e', 'g', 'i', 'o', 'n']),
          20 + 5 + nodeTypeToSubOffset ScalarKind.PLAIN + 2 + ([] : List Char).length⟩).severity =
        Severity.Error) :=
  ⟨by decide, by decide, by decide, by decide,
    sub_aws_pseudo_parameter_still_checked ScalarKind.PLAIN []
      ['R', 'e', 'g', 'i', 'o', 'n'] [] 20 "Resources:\n  X: !Sub abc"
      ⟨["P"], ["R"], [], [], ⟨[], []⟩⟩ (by decide) (by decide) (by decide) (by decide)⟩
